import Mathlib

/-!
Verification of the access-code store of `src/xwgit/xwgit-core.py`.

The store persisted in `codes.json` is a JSON object mapping an 8-character
code to a record with fields `name`, `created_at`, `expires_at`.  We embed it
as an association list with string keys; a Python dict holds at most one
binding per key, `codes[code] = v` replaces the binding of `code` (or appends
it), and `del codes[code]` removes it.  Timestamps (`time.time()`) are
embedded as natural-number seconds; the wall clock is passed in as the
parameter `now` (clock injection, as the spec's test guidance suggests).
Randomness (`secrets.choice(alphabet)` repeated 8 times) is embedded as a
function `pick : Fin 8 → Fin 36` giving the index drawn from the alphabet at
each of the 8 positions.
-/

namespace XwGit

/-- One record of `codes.json`: `{"name": ..., "created_at": ..., "expires_at": ...}`. -/
structure AccessRecord where
  name : String
  created_at : Nat
  expires_at : Nat
  deriving Repr, DecidableEq

/-- The persisted store: a mapping from code to record (a Python dict). -/
abbrev CodeStore := List (String × AccessRecord)

/-- Dict lookup: `codes[code]` / `code in codes`. -/
def storeLookup : CodeStore → String → Option AccessRecord
  | [], _ => none
  | (k, v) :: rest, c => if k = c then some v else storeLookup rest c

/-- Dict assignment: `codes[code] = v` (replace the binding if present, else add it). -/
def storeInsert : CodeStore → String → AccessRecord → CodeStore
  | [], c, r => [(c, r)]
  | (k, v) :: rest, c, r =>
    if k = c then (c, r) :: rest else (k, v) :: storeInsert rest c r

/-- Dict deletion: `del codes[code]` (removes every binding of the key; on a
genuine dict image, which has at most one binding per key, this is exactly
deletion of that key). -/
def storeErase : CodeStore → String → CodeStore
  | [], _ => []
  | (k, v) :: rest, c =>
    if k = c then storeErase rest c else (k, v) :: storeErase rest c

/-- `string.ascii_uppercase + string.digits`: the 36-symbol alphabet A-Z, 0-9. -/
def alphabetList : List Char :=
  ['A', 'B', 'C', 'D', 'E', 'F', 'G', 'H', 'I', 'J', 'K', 'L', 'M',
   'N', 'O', 'P', 'Q', 'R', 'S', 'T', 'U', 'V', 'W', 'X', 'Y', 'Z',
   '0', '1', '2', '3', '4', '5', '6', '7', '8', '9']

/-- `secrets.choice(alphabet)`: one draw, given its index in the alphabet. -/
def alphaChar (i : Fin 36) : Char :=
  alphabetList.get (Fin.cast (by decide) i)

/-- `''.join(secrets.choice(alphabet) for _ in range(8))`: the 8-character code
built from the 8 random draws. -/
def randomCode (pick : Fin 8 → Fin 36) : String :=
  String.mk ((List.finRange 8).map (fun i => alphaChar (pick i)))

/-- `generate_access_code(name)` (xwgit-core.py, lines 53-70): loads the store,
draws a random 8-character code, stores `{"name": name, "created_at": now,
"expires_at": now + 86400}` under the code (no collision check: a plain dict
assignment), saves, and returns the code.  Returns the code together with the
saved store. -/
def generate_access_code (pick : Fin 8 → Fin 36) (now : Nat) (name : String)
    (codes : CodeStore) : String × CodeStore :=
  let code := randomCode pick
  (code, storeInsert codes code ⟨name, now, now + 86400⟩)

/-- `verify_access_code(code)` (xwgit-core.py, lines 72-99), with the I/O
assumed to succeed: if the code is absent, returns `none` and leaves the store
untouched (the function returns before any write); if present but
`now > expires_at`, deletes the record, saves, and returns `none`; otherwise
deletes the record, saves, and returns the owner name.  Returns the result
together with the persisted store. -/
def verify_access_code (now : Nat) (codes : CodeStore) (code : String) :
    Option String × CodeStore :=
  match storeLookup codes code with
  | none => (none, codes)
  | some code_data =>
    if now > code_data.expires_at then
      (none, storeErase codes code)
    else
      (some code_data.name, storeErase codes code)

/-- The body of `verify_access_code`, this time with the fallible I/O made
explicit: `loadRes` is the outcome of `load_access_codes()` (an exception is
an `Except.error`), and `saveFails` says whether a call to
`save_access_codes` raises.  This is the code inside the `try:` block, so an
exception propagates out as `Except.error`. -/
def verify_access_code_body (now : Nat) (loadRes : Except String CodeStore)
    (saveFails : Bool) (code : String) : Except String (Option String) :=
  match loadRes with
  | .error e => .error e
  | .ok codes =>
    match storeLookup codes code with
    | none => .ok none
    | some code_data =>
      if now > code_data.expires_at then
        if saveFails then .error "save failed" else .ok none
      else
        if saveFails then .error "save failed" else .ok (some code_data.name)

/-- `verify_access_code` as the caller sees it: the `try ... except Exception`
wrapper catches every exception of the body and returns `None`.  Total by
construction: no exception escapes. -/
def verify_access_code_total (now : Nat) (loadRes : Except String CodeStore)
    (saveFails : Bool) (code : String) : Option String :=
  match verify_access_code_body now loadRes saveFails code with
  | .ok r => r
  | .error _ => none

/-- The observable outcome of `cmd_generate_code(args)` (xwgit-core.py,
lines 223-239): it generates a code, prints it with the text
"Valid for: 30 minutes", and falls off the end of `main` (process exit
status 0).  `printedValidMinutes` is the validity window the printed text
announces. -/
structure CmdGenerateCodeOutput where
  exitCode : Nat
  code : String
  printedValidMinutes : Nat
  store : CodeStore
  deriving Repr, DecidableEq

/-- `cmd_generate_code` embedded: exitCode 0, the printed window is the
literal "30 minutes" of the source, and the store is the one
`generate_access_code` saved. -/
def cmd_generate_code (pick : Fin 8 → Fin 36) (now : Nat) (name : String)
    (codes : CodeStore) : CmdGenerateCodeOutput :=
  let result := generate_access_code pick now name codes
  ⟨0, result.1, 30, result.2⟩

/-- One store operation, for reasoning about reachable states: an
`issue` (`generate_access_code`) with its random draws and clock, or a
`redeem` (`verify_access_code`) with its clock. -/
inductive Op where
  | issue (pick : Fin 8 → Fin 36) (now : Nat) (name : String)
  | redeem (now : Nat) (code : String)

/-- The store after one operation. -/
def applyOp (s : CodeStore) : Op → CodeStore
  | .issue pick now name => (generate_access_code pick now name s).2
  | .redeem now code => (verify_access_code now s code).2

/-- The store after a sequence of operations. -/
def runOps (s : CodeStore) (ops : List Op) : CodeStore :=
  ops.foldl applyOp s

/-- Whether an operation issues exactly the code `c` (re-issue of `c`). -/
def opIssuesCode (c : String) : Op → Bool
  | .issue pick _ _ => randomCode pick == c
  | .redeem _ _ => false

theorem storeLookup_insert_same (s : CodeStore) (c : String) (r : AccessRecord) :
    storeLookup (storeInsert s c r) c = some r := by
  induction s with
  | nil => simp [storeInsert, storeLookup]
  | cons p rest ih =>
    obtain ⟨k, v⟩ := p
    by_cases h : k = c
    · simp [storeInsert, h, storeLookup]
    · simp [storeInsert, h, storeLookup, ih]

theorem storeLookup_insert_other (s : CodeStore) (c k : String) (r : AccessRecord)
    (h : k ≠ c) : storeLookup (storeInsert s c r) k = storeLookup s k := by
  induction s with
  | nil => simp [storeInsert, storeLookup, Ne.symm h]
  | cons p rest ih =>
    obtain ⟨k', v⟩ := p
    by_cases hk : k' = c
    · subst hk
      simp [storeInsert, storeLookup, Ne.symm h]
    · simp only [storeInsert, if_neg hk, storeLookup]
      by_cases hk2 : k' = k
      · simp [hk2]
      · simp [hk2, ih]

theorem storeLookup_erase_same (s : CodeStore) (c : String) :
    storeLookup (storeErase s c) c = none := by
  induction s with
  | nil => simp [storeErase, storeLookup]
  | cons p rest ih =>
    obtain ⟨k, v⟩ := p
    by_cases h : k = c
    · simp [storeErase, h, ih]
    · simp [storeErase, h, storeLookup, ih]

theorem storeLookup_erase_other (s : CodeStore) (c k : String) (h : k ≠ c) :
    storeLookup (storeErase s c) k = storeLookup s k := by
  induction s with
  | nil => simp [storeErase]
  | cons p rest ih =>
    obtain ⟨k', v⟩ := p
    by_cases hk : k' = c
    · subst hk
      simp [storeErase, storeLookup, Ne.symm h, ih]
    · simp only [storeErase, if_neg hk, storeLookup]
      by_cases hk2 : k' = k
      · simp [hk2]
      · simp [hk2, ih]

theorem storeLookup_erase_none (s : CodeStore) (c k : String)
    (h : storeLookup s c = none) : storeLookup (storeErase s k) c = none := by
  by_cases hck : c = k
  · subst hck
    exact storeLookup_erase_same s c
  · rw [storeLookup_erase_other s k c hck]
    exact h

theorem storeInsert_cons (k' : String) (v : AccessRecord) (rest : CodeStore)
    (c : String) (r : AccessRecord) :
    storeInsert ((k', v) :: rest) c r
      = if k' = c then (c, r) :: rest else (k', v) :: storeInsert rest c r := rfl

theorem mem_keys_insert (s : CodeStore) (c k : String) (r : AccessRecord) :
    k ∈ (storeInsert s c r).map Prod.fst ↔ k ∈ s.map Prod.fst ∨ k = c := by
  induction s with
  | nil => simp [storeInsert]
  | cons p rest ih =>
    obtain ⟨k', v⟩ := p
    rw [storeInsert_cons]
    by_cases hk : k' = c
    · rw [if_pos hk]
      subst hk
      simp only [List.map_cons, List.mem_cons]
      tauto
    · rw [if_neg hk]
      simp only [List.map_cons, List.mem_cons, ih]
      tauto

theorem nodup_keys_insert (s : CodeStore) (c : String) (r : AccessRecord)
    (h : (s.map Prod.fst).Nodup) : ((storeInsert s c r).map Prod.fst).Nodup := by
  induction s with
  | nil => simp [storeInsert]
  | cons p rest ih =>
    obtain ⟨k, v⟩ := p
    simp only [List.map_cons, List.nodup_cons] at h
    rw [storeInsert_cons]
    by_cases hk : k = c
    · rw [if_pos hk]
      subst hk
      simpa [List.nodup_cons] using h
    · rw [if_neg hk]
      simp only [List.map_cons, List.nodup_cons]
      refine ⟨?_, ih h.2⟩
      rw [mem_keys_insert]
      rintro (hmem | hkc)
      · exact h.1 hmem
      · exact hk hkc

theorem storeLookup_none_applyOp (s : CodeStore) (c : String) (op : Op)
    (h : storeLookup s c = none) (hop : opIssuesCode c op = false) :
    storeLookup (applyOp s op) c = none := by
  cases op with
  | issue pick now name =>
    simp only [opIssuesCode, beq_eq_false_iff_ne, ne_eq] at hop
    simp only [applyOp, generate_access_code]
    rw [storeLookup_insert_other _ _ _ _ (fun hh => hop hh.symm)]
    exact h
  | redeem now code =>
    simp only [applyOp, verify_access_code]
    cases hl : storeLookup s code with
    | none => exact h
    | some code_data =>
      by_cases hexp : now > code_data.expires_at
      · simp only [if_pos hexp]
        exact storeLookup_erase_none s c code h
      · simp only [if_neg hexp]
        exact storeLookup_erase_none s c code h

theorem storeLookup_none_runOps (s : CodeStore) (c : String) (ops : List Op)
    (h : storeLookup s c = none) (hops : ∀ op ∈ ops, opIssuesCode c op = false) :
    storeLookup (runOps s ops) c = none := by
  induction ops generalizing s with
  | nil => exact h
  | cons op rest ih =>
    simp only [runOps, List.foldl_cons]
    exact ih (applyOp s op)
      (storeLookup_none_applyOp s c op h (hops op (List.mem_cons_self op rest)))
      (fun o ho => hops o (List.mem_cons_of_mem op ho))

theorem verify_success_store (now : Nat) (s : CodeStore) (c nm : String)
    (s' : CodeStore) (h : verify_access_code now s c = (some nm, s')) :
    s' = storeErase s c := by
  unfold verify_access_code at h
  cases hl : storeLookup s c with
  | none =>
    rw [hl] at h
    exact absurd (congrArg Prod.fst h) (by simp)
  | some code_data =>
    rw [hl] at h
    by_cases hexp : now > code_data.expires_at
    · simp [hexp] at h
    · simp [hexp, Prod.ext_iff] at h
      exact h.2.symm

/-- Claim C1: once `redeem(c)` succeeds and returns the owner name, the record
for `c` is deleted from the persisted store, and every subsequent `redeem(c)`
after any sequence of issue/redeem operations none of which re-issues the code
`c` returns NOT_FOUND (`none`); in particular no two redemptions of the same
code can both succeed. -/
theorem redeem_single_use (now : Nat) (s : CodeStore) (c nm : String)
    (s' : CodeStore) (h : verify_access_code now s c = (some nm, s')) :
    storeLookup s' c = none ∧
      ∀ ops : List Op, (∀ op ∈ ops, opIssuesCode c op = false) →
        ∀ now2 : Nat, (verify_access_code now2 (runOps s' ops) c).1 = none := by
  have hs' : s' = storeErase s c := verify_success_store now s c nm s' h
  subst hs'
  refine ⟨storeLookup_erase_same s c, ?_⟩
  intro ops hops now2
  have hnone := storeLookup_none_runOps (storeErase s c) c ops
    (storeLookup_erase_same s c) hops
  simp [verify_access_code, hnone]

theorem redeem_single_use_witness :
    storeLookup ([] : CodeStore) "AB12CD34" = none ∧
    (verify_access_code 7 (runOps ([] : CodeStore) [Op.redeem 3 "OTHER"])
        "AB12CD34").1 = none :=
  have h := redeem_single_use 0 [("AB12CD34", ⟨"bob", 0, 86400⟩)] "AB12CD34"
    "bob" [] (by decide)
  ⟨h.1, h.2 [Op.redeem 3 "OTHER"] (by decide) 7⟩

/-- Claim C2 counterexample: with the draws all landing on index 0 the
generated code is "AAAAAAAA", which is already present in the store (bound to
alice's record); `generate_access_code` does not regenerate — it returns that
very code and silently replaces alice's pre-existing record with bob's. -/
theorem issue_collision_counterexample :
    storeLookup [("AAAAAAAA", ⟨"alice", 0, 86400⟩)]
        (randomCode (fun _ => (0 : Fin 36))) ≠ none ∧
    (generate_access_code (fun _ => (0 : Fin 36)) 5 "bob"
        [("AAAAAAAA", ⟨"alice", 0, 86400⟩)]).1 = randomCode (fun _ => (0 : Fin 36)) ∧
    (generate_access_code (fun _ => (0 : Fin 36)) 5 "bob"
        [("AAAAAAAA", ⟨"alice", 0, 86400⟩)]).2 = [("AAAAAAAA", ⟨"bob", 5, 86405⟩)] ∧
    (⟨"bob", 5, 86405⟩ : AccessRecord) ≠ ⟨"alice", 0, 86400⟩ := by
  decide

/-- Claim C2 amended: when the generated code already exists in the store,
`generate_access_code` silently overwrites the existing record with the new
one (it never regenerates); the collision is not surfaced to the user (the
call still returns a code normally), and codes remain unique within the
store: a store whose keys are duplicate-free stays duplicate-free. -/
theorem issue_collision_overwrites (pick : Fin 8 → Fin 36) (now : Nat)
    (name : String) (s : CodeStore) (hnodup : (s.map Prod.fst).Nodup) :
    (generate_access_code pick now name s).1 = randomCode pick ∧
    storeLookup (generate_access_code pick now name s).2 (randomCode pick)
      = some ⟨name, now, now + 86400⟩ ∧
    ((generate_access_code pick now name s).2.map Prod.fst).Nodup :=
  ⟨rfl, storeLookup_insert_same s _ _, nodup_keys_insert s _ _ hnodup⟩

theorem issue_collision_overwrites_witness :
    (([("AAAAAAAA", (⟨"alice", 0, 86400⟩ : AccessRecord))] : CodeStore).map
        Prod.fst).Nodup ∧
    storeLookup (generate_access_code (fun _ => (0 : Fin 36)) 5 "bob"
        [("AAAAAAAA", ⟨"alice", 0, 86400⟩)]).2 (randomCode (fun _ => (0 : Fin 36)))
      = some ⟨"bob", 5, 86405⟩ ∧
    ((generate_access_code (fun _ => (0 : Fin 36)) 5 "bob"
        [("AAAAAAAA", ⟨"alice", 0, 86400⟩)]).2.map Prod.fst).Nodup :=
  have h := issue_collision_overwrites (fun _ => (0 : Fin 36)) 5 "bob"
    [("AAAAAAAA", ⟨"alice", 0, 86400⟩)] (by decide)
  ⟨by decide, h.2.1, h.2.2⟩

/-- Claim C3: for every owner name, every starting store, every random draw
and every redemption time not yet past the expiry, redeeming the code returned
by `generate_access_code(name)` returns `name`. -/
theorem redeem_after_issue (pick : Fin 8 → Fin 36) (now t : Nat) (name : String)
    (s : CodeStore) (h : t ≤ now + 86400) :
    (verify_access_code t (generate_access_code pick now name s).2
        (generate_access_code pick now name s).1).1 = some name := by
  have hgt : ¬ t > now + 86400 := by omega
  simp [generate_access_code, verify_access_code, storeLookup_insert_same, hgt]

theorem redeem_after_issue_witness :
    (0 : Nat) ≤ 0 + 86400 ∧
    (verify_access_code 0 (generate_access_code (fun _ => (0 : Fin 36)) 0
        "alice" []).2
        (generate_access_code (fun _ => (0 : Fin 36)) 0 "alice" []).1).1
      = some "alice" :=
  ⟨by decide, redeem_after_issue (fun _ => (0 : Fin 36)) 0 0 "alice" [] (by decide)⟩

/-- Claim C4: for every code present in the store, redeeming it at a time
strictly past the record's `expires_at` returns NOT_FOUND (`none`) and, as a
side effect, deletes the record from the persisted store. -/
theorem redeem_expired (now : Nat) (s : CodeStore) (c : String)
    (r : AccessRecord) (hmem : storeLookup s c = some r)
    (hexp : now > r.expires_at) :
    verify_access_code now s c = (none, storeErase s c) ∧
    storeLookup (verify_access_code now s c).2 c = none := by
  have hv : verify_access_code now s c = (none, storeErase s c) := by
    simp [verify_access_code, hmem, hexp]
  refine ⟨hv, ?_⟩
  rw [hv]
  exact storeLookup_erase_same s c

theorem redeem_expired_witness :
    verify_access_code 101 [("OLD12345", ⟨"eve", 0, 100⟩)] "OLD12345"
      = (none, storeErase [("OLD12345", ⟨"eve", 0, 100⟩)] "OLD12345") ∧
    storeLookup (verify_access_code 101 [("OLD12345", ⟨"eve", 0, 100⟩)]
        "OLD12345").2 "OLD12345" = none :=
  redeem_expired 101 [("OLD12345", ⟨"eve", 0, 100⟩)] "OLD12345"
    ⟨"eve", 0, 100⟩ (by decide) (by decide)

/-- Claim C5 (code bug): `cmd_generate_code` always finishes with exit
status 0 and prints the new code, but the validity window it prints says
"Valid for: 30 minutes" (30 * 60 = 1800 seconds) while the record it stores
expires 86400 seconds (24 hours) after issuance — the printed window does not
agree with the stored expiry.  Evaluated here at the failing input
`generate-code alice` (all draws at index 0, clock at 0). -/
theorem cmd_generate_code_window_mismatch :
    (cmd_generate_code (fun _ => (0 : Fin 36)) 0 "alice" []).exitCode = 0 ∧
    (cmd_generate_code (fun _ => (0 : Fin 36)) 0 "alice" []).printedValidMinutes
      = 30 ∧
    storeLookup (cmd_generate_code (fun _ => (0 : Fin 36)) 0 "alice" []).store
        (cmd_generate_code (fun _ => (0 : Fin 36)) 0 "alice" []).code
      = some ⟨"alice", 0, 86400⟩ ∧
    30 * 60 ≠ 86400 := by
  decide

theorem alphaChar_mem : ∀ i : Fin 36, alphaChar i ∈ alphabetList := by
  decide

/-- Claim C6: for every name (and every store, clock, and random draw), the
code returned by `generate_access_code` is a string of exactly 8 characters,
each drawn from the 36-symbol alphabet A-Z, 0-9. -/
theorem issue_code_format (pick : Fin 8 → Fin 36) (now : Nat) (name : String)
    (s : CodeStore) :
    (generate_access_code pick now name s).1.length = 8 ∧
    ∀ ch ∈ (generate_access_code pick now name s).1.toList, ch ∈ alphabetList := by
  constructor
  · simp [generate_access_code, randomCode, String.length]
  · intro ch hch
    have hm : ch ∈ (List.finRange 8).map (fun i => alphaChar (pick i)) := hch
    obtain ⟨i, _, hi⟩ := List.mem_map.mp hm
    rw [← hi]
    exact alphaChar_mem (pick i)

/-- Claim C7: `generate_access_code` stores the record with
`created_at = now` and `expires_at = now + 86400`; the code redeems
successfully one second before expiry (`now + 86400 - 1`) and is NOT_FOUND
one second after expiry (`now + 86400 + 1`). -/
theorem issue_expiry_window (pick : Fin 8 → Fin 36) (now : Nat) (name : String)
    (s : CodeStore) :
    storeLookup (generate_access_code pick now name s).2
        (generate_access_code pick now name s).1
      = some ⟨name, now, now + 86400⟩ ∧
    (verify_access_code (now + 86400 - 1) (generate_access_code pick now name s).2
        (generate_access_code pick now name s).1).1 = some name ∧
    (verify_access_code (now + 86400 + 1) (generate_access_code pick now name s).2
        (generate_access_code pick now name s).1).1 = none := by
  refine ⟨storeLookup_insert_same s _ _, ?_, ?_⟩
  · have hgt : ¬ now + 86400 - 1 > now + 86400 := by omega
    simp [generate_access_code, verify_access_code, storeLookup_insert_same, hgt]
  · have hgt : now + 86400 + 1 > now + 86400 := by omega
    simp [generate_access_code, verify_access_code, storeLookup_insert_same, hgt]

/-- Claim C8: redeeming any code absent from the store (in particular any code
against the empty store) returns NOT_FOUND (`none`), performs no write (the
store is returned untouched), and by construction cannot raise. -/
theorem redeem_not_found (now : Nat) (s : CodeStore) (c : String)
    (h : storeLookup s c = none) :
    (verify_access_code now s c).1 = none ∧ (verify_access_code now s c).2 = s := by
  have hv : verify_access_code now s c = (none, s) := by
    simp [verify_access_code, h]
  rw [hv]
  exact ⟨rfl, rfl⟩

theorem redeem_not_found_witness :
    (verify_access_code 0 ([] : CodeStore) "ZZZZZZZZ").1 = none ∧
    (verify_access_code 0 ([] : CodeStore) "ZZZZZZZZ").2 = [] :=
  redeem_not_found 0 [] "ZZZZZZZZ" (by decide)

/-- Claim C9 (frame property): `generate_access_code` adds one entry under the
generated code and leaves every entry with a different key unchanged;
`verify_access_code` leaves every entry with a key different from the code
passed in unchanged, and when that code is absent it performs no write at all
(the store is returned exactly as loaded). -/
theorem store_frame_property (pick : Fin 8 → Fin 36) (now now2 : Nat)
    (name : String) (s : CodeStore) (c k : String) :
    storeLookup (generate_access_code pick now name s).2
        (generate_access_code pick now name s).1
      = some ⟨name, now, now + 86400⟩ ∧
    (k ≠ (generate_access_code pick now name s).1 →
      storeLookup (generate_access_code pick now name s).2 k = storeLookup s k) ∧
    (k ≠ c → storeLookup (verify_access_code now2 s c).2 k = storeLookup s k) ∧
    (storeLookup s c = none → (verify_access_code now2 s c).2 = s) := by
  refine ⟨storeLookup_insert_same s _ _, ?_, ?_, ?_⟩
  · intro hk
    exact storeLookup_insert_other s (randomCode pick) k _ hk
  · intro hk
    cases hl : storeLookup s c with
    | none => simp [verify_access_code, hl]
    | some code_data =>
      by_cases hexp : now2 > code_data.expires_at
      · simp [verify_access_code, hl, hexp, storeLookup_erase_other s c k hk]
      · simp [verify_access_code, hl, hexp, storeLookup_erase_other s c k hk]
  · intro hnone
    simp [verify_access_code, hnone]

theorem store_frame_property_witness :
    storeLookup (generate_access_code (fun _ => (0 : Fin 36)) 0 "carol"
        [("BB22BB22", ⟨"dave", 0, 86400⟩)]).2
        (generate_access_code (fun _ => (0 : Fin 36)) 0 "carol"
          [("BB22BB22", ⟨"dave", 0, 86400⟩)]).1
      = some ⟨"carol", 0, 86400⟩ ∧
    storeLookup (generate_access_code (fun _ => (0 : Fin 36)) 0 "carol"
        [("BB22BB22", ⟨"dave", 0, 86400⟩)]).2 "BB22BB22"
      = storeLookup [("BB22BB22", ⟨"dave", 0, 86400⟩)] "BB22BB22" ∧
    storeLookup (verify_access_code 1 [("BB22BB22", ⟨"dave", 0, 86400⟩)]
        "ZZZZZZZZ").2 "BB22BB22"
      = storeLookup [("BB22BB22", ⟨"dave", 0, 86400⟩)] "BB22BB22" ∧
    (verify_access_code 1 [("BB22BB22", ⟨"dave", 0, 86400⟩)] "ZZZZZZZZ").2
      = [("BB22BB22", ⟨"dave", 0, 86400⟩)] :=
  have h := store_frame_property (fun _ => (0 : Fin 36)) 0 1 "carol"
    [("BB22BB22", ⟨"dave", 0, 86400⟩)] "ZZZZZZZZ" "BB22BB22"
  ⟨h.1, h.2.1 (by decide), h.2.2.1 (by decide), h.2.2.2 (by decide)⟩

/-- Claim C10: `verify_access_code` is total at its interface — the
`try/except` wrapper catches every exception of its body, including a failing
store load or store save, and maps it to `none` (NOT_FOUND), so at the return
value a storage failure is indistinguishable from a code absent from the
store. -/
theorem verify_io_failure_not_found (now : Nat)
    (loadRes : Except String CodeStore) (saveFails : Bool) (code : String)
    (h : (∃ e, loadRes = Except.error e) ∨ saveFails = true) :
    verify_access_code_total now loadRes saveFails code = none ∧
    verify_access_code_total now loadRes saveFails code
      = verify_access_code_total now (Except.ok []) false "ZZZZZZZZ" := by
  have hnone : verify_access_code_total now loadRes saveFails code = none := by
    cases loadRes with
    | error e => rfl
    | ok codes =>
      rcases h with ⟨e, he⟩ | hs
      · simp at he
      · subst hs
        cases hl : storeLookup codes code with
        | none =>
          simp [verify_access_code_total, verify_access_code_body, hl]
        | some code_data =>
          by_cases hexp : now > code_data.expires_at
          · simp [verify_access_code_total, verify_access_code_body, hl, hexp]
          · simp [verify_access_code_total, verify_access_code_body, hl, hexp]
  refine ⟨hnone, ?_⟩
  rw [hnone]
  rfl

theorem verify_io_failure_not_found_witness :
    verify_access_code_total 0
        (Except.error "disk failure" : Except String CodeStore) false "AB12CD34"
      = none ∧
    verify_access_code_total 0
        (Except.error "disk failure" : Except String CodeStore) false "AB12CD34"
      = verify_access_code_total 0 (Except.ok []) false "ZZZZZZZZ" :=
  verify_io_failure_not_found 0 (Except.error "disk failure") false "AB12CD34"
    (Or.inl ⟨"disk failure", rfl⟩)

end XwGit
